import Mathlib

/-!
Verification of the Reliable Transaction Execution Subsystem of the
haven-token backend: the per-wallet nonce coordinator
(backend/services/nonce_manager.py), the retrying transaction submitter
(backend/services/token_agent.py), the circuit breaker
(backend/middleware/circuit_breaker.py) and the idempotency cache
(backend/middleware/idempotency.py), shallowly embedded in Lean.

Time is modelled as a discrete clock in deciseconds (0.1 s units), the
granularity of the smallest sleep in the source (0.1 s); a Redis key-value
store is modelled as an association list of entries carrying an optional
absolute expiry instant.  Redis GET on an expired key yields nothing and
SET NX on an expired key succeeds, matching Redis semantics.
-/

namespace Haven

instance {ε α : Type} [DecidableEq ε] [DecidableEq α] : DecidableEq (Except ε α) := fun
  | .ok a, .ok b =>
    if h : a = b then .isTrue (by rw [h]) else .isFalse (by simp [h])
  | .ok _, .error _ => .isFalse (by simp)
  | .error _, .ok _ => .isFalse (by simp)
  | .error e, .error f =>
    if h : e = f then .isTrue (by rw [h]) else .isFalse (by simp [h])

/-! ## Shared key-value (Redis) store model -/

/-- One stored entry: its value and, when set with EX, the absolute instant
at which it expires (the entry is live strictly before that instant). -/
structure RedisEntry (α : Type) where
  value : α
  expiresAt : Option Nat
deriving Repr, DecidableEq

/-- A Redis database holding values of type `α`, plus a ghost journal of the
plain SET writes performed on it (used only to observe whether the code
persisted a value; it does not influence behaviour). -/
structure RedisStore (α : Type) where
  entries : List (String × RedisEntry α)
  journal : List (String × α)
deriving Repr, DecidableEq

/-- Is an entry live at instant `now`?  EX-set keys expire at `expiresAt`. -/
def RedisEntry.live {α : Type} (e : RedisEntry α) (now : Nat) : Bool :=
  match e.expiresAt with
  | none => true
  | some t => now < t

namespace RedisStore

variable {α : Type}

def empty : RedisStore α := ⟨[], []⟩

/-- Raw lookup of the physical entry for a key (expired entries included). -/
def lookup (s : RedisStore α) (k : String) : Option (RedisEntry α) :=
  (s.entries.find? (fun p => p.fst == k)).map Prod.snd

/-- Redis GET: the value of `k` if present and not expired. -/
def get (s : RedisStore α) (now : Nat) (k : String) : Option α :=
  match s.lookup k with
  | some e => if RedisEntry.live e now then some e.value else none
  | none => none

/-- Redis SET without expiry (clears any TTL), journalled. -/
def set (s : RedisStore α) (k : String) (v : α) : RedisStore α :=
  { entries := (k, ⟨v, none⟩) :: s.entries.filter (fun p => !(p.fst == k)),
    journal := s.journal ++ [(k, v)] }

/-- Redis SETEX: set with a relative TTL measured from `now`. -/
def setEX (s : RedisStore α) (now : Nat) (k : String) (v : α) (ttl : Nat) :
    RedisStore α :=
  { entries := (k, ⟨v, some (now + ttl)⟩) :: s.entries.filter (fun p => !(p.fst == k)),
    journal := s.journal }

/-- Redis SET with NX and EX: succeeds only if `k` has no live value. -/
def setNXEX (s : RedisStore α) (now : Nat) (k : String) (v : α) (ttl : Nat) :
    Bool × RedisStore α :=
  match s.get now k with
  | some _ => (false, s)
  | none =>
    (true,
     { entries := (k, ⟨v, some (now + ttl)⟩) :: s.entries.filter (fun p => !(p.fst == k)),
       journal := s.journal })

/-- Redis DEL. -/
def del (s : RedisStore α) (k : String) : RedisStore α :=
  { entries := s.entries.filter (fun p => !(p.fst == k)), journal := s.journal }

end RedisStore

/-! ## Python string primitives

The source stores nonces as decimal strings in Redis and lowercases wallet
addresses.  These helpers model the Python primitives involved. -/

/-- Python str.lower(): lowercase every character (the addresses involved
are ASCII hex strings, for which Char.toLower matches Python). -/
def strLower (s : String) : String := ⟨s.data.map Char.toLower⟩

def digitVal (c : Char) : Option Nat :=
  if c.isDigit then some (c.toNat - 48) else none

def parseNatList : List Char → Option Nat → Option Nat
  | [], acc => acc
  | c :: rest, acc =>
    match digitVal c, acc with
    | some d, some a => parseNatList rest (some (a * 10 + d))
    | some d, none => parseNatList rest (some d)
    | none, _ => none

/-- Python int(s) on the plain decimal strings this code writes (a nonempty
digit string); other inputs raise, modelled as none.  Python also accepts
signs and surrounding whitespace, which never occur here because every
stored value is produced by str(n). -/
def parseNat (s : String) : Option Nat := parseNatList s.data none

/-- Python `pat in s` on character lists. -/
def listContains (pat : List Char) : List Char → Bool
  | [] => pat.isEmpty
  | c :: rest => pat.isPrefixOf (c :: rest) || listContains pat rest

/-- Python `pat in s` for strings. -/
def strContains (s pat : String) : Bool := listContains pat.data s.data

/-! ## NonceManager (backend/services/nonce_manager.py)

State: the Redis database of the manager plus a clock in deciseconds.
time.sleep advances the clock; every other operation is instantaneous.
The manager is constructed with the default lock_timeout of 30 s
(300 deciseconds). -/

/-- NonceManager state: its Redis store (string values) and a clock. -/
structure NMState where
  store : RedisStore String
  clock : Nat
deriving Repr, DecidableEq

inductive NMError
  /-- RuntimeError raised when acquire_lock exhausts its attempts. -/
  | lockTimeout
  /-- ValueError raised by int() on a non-numeric stored value. -/
  | parseFailure
deriving Repr, DecidableEq

/-- _get_nonce_key. -/
def nonceKey (w : String) : String := "nonce:" ++ strLower w

/-- _get_lock_key. -/
def lockKey (w : String) : String := "nonce:lock:" ++ strLower w

/-- Default lock_timeout (30 s) in deciseconds. -/
def LOCK_TIMEOUT_DS : Nat := 300

/-- The finally block of acquire_lock: re-read the lock key and delete it
only if it still holds this acquisition's lock_id. -/
def releaseLock (st : NMState) (k lockId : String) : NMState :=
  match st.store.get st.clock k with
  | some v => if v = lockId then { st with store := st.store.del k } else st
  | none => st

/-- The retry loop of acquire_lock.  Each attempt issues SET NX EX; on
failure it sleeps `delay` (doubling, capped at 5 s = 50 ds) and retries,
up to `remaining` attempts in total; exhaustion raises RuntimeError.
On acquisition the protected body runs and the lock is released in the
finally block whether the body returns or raises. -/
def acquireLockGo {α : Type} (k lockId : String) (timeout : Nat)
    (body : NMState → Except NMError α × NMState) :
    (delay remaining : Nat) → NMState → Except NMError α × NMState
  | _, 0, st => (.error .lockTimeout, st)
  | delay, remaining + 1, st =>
    match (st.store.setNXEX st.clock k lockId timeout : Bool × RedisStore String) with
    | (true, store') =>
      let p := body { st with store := store' }
      (p.1, releaseLock p.2 k lockId)
    | (false, _) =>
      acquireLockGo k lockId timeout body (min (delay * 2) 50)
        remaining { st with clock := st.clock + delay }

/-- acquire_lock(wallet_address): context manager around `body`; the
lock_id is str(time.time()) at entry, 10 attempts, first retry delay
0.1 s (1 ds). -/
def acquire_lock {α : Type} (w : String) (timeout : Nat)
    (body : NMState → Except NMError α × NMState) (st : NMState) :
    Except NMError α × NMState :=
  acquireLockGo (lockKey w) (toString st.clock) timeout body 1 10 st

/-- Total clock advance of a run of failed acquisition attempts starting
from retry delay `delay` with `remaining` attempts left. -/
def totalSleep : Nat → Nat → Nat
  | _, 0 => 0
  | delay, remaining + 1 => delay + totalSleep (min (delay * 2) 50) remaining

/-- The body of get_nonce, run under the wallet lock: read the stored
nonce, query the chain's transaction count, then adopt the chain value
(no stored value or force_sync) or max(stored, chain), persisting the
adopted value when it differs from the stored one. -/
def getNonceBody (chain : String → Nat) (w : String) (forceSync : Bool)
    (st : NMState) : Except NMError Nat × NMState :=
  let stored := st.store.get st.clock (nonceKey w)
  let blockchainNonce := chain (strLower w)
  match stored with
  | none =>
    (.ok blockchainNonce,
     { st with store := st.store.set (nonceKey w) (toString blockchainNonce) })
  | some v =>
    if forceSync then
      (.ok blockchainNonce,
       { st with store := st.store.set (nonceKey w) (toString blockchainNonce) })
    else
      match parseNat v with
      | none => (.error .parseFailure, st)
      | some storedNonce =>
        let nonce := max storedNonce blockchainNonce
        if nonce ≠ storedNonce then
          (.ok nonce, { st with store := st.store.set (nonceKey w) (toString nonce) })
        else
          (.ok nonce, st)

/-- get_nonce(wallet_address, force_sync): lowercases the wallet, then runs
`getNonceBody` under the wallet lock.  `chain` is the chain's
get_transaction_count oracle, keyed by lowercase wallet. -/
def get_nonce (chain : String → Nat) (w : String) (forceSync : Bool)
    (st : NMState) : Except NMError Nat × NMState :=
  let wl := strLower w
  acquire_lock wl LOCK_TIMEOUT_DS (getNonceBody chain wl forceSync) st

/-- reserve_nonce(wallet_address): under the wallet lock, call get_nonce
(which itself acquires the same lock), store current+1, return current. -/
def reserve_nonce (chain : String → Nat) (w : String) (st : NMState) :
    Except NMError Nat × NMState :=
  let wl := strLower w
  acquire_lock wl LOCK_TIMEOUT_DS
    (fun st₁ =>
      match get_nonce chain wl false st₁ with
      | (.ok current, st₂) =>
        (.ok current,
         { st₂ with store := st₂.store.set (nonceKey wl) (toString (current + 1)) })
      | (.error e, st₂) => (.error e, st₂)) st

/-! ## TokenAgent (backend/services/token_agent.py) -/

/-- A Python exception as the retry logic observes it: its message and
whether it is an instance of web3's TimeExhausted or of ConnectionError. -/
structure PyError where
  msg : String
  isTimeExhausted : Bool
  isConnectionError : Bool
deriving Repr, DecidableEq

/-- TransactionRetryConfig.RETRYABLE_ERRORS. -/
def RETRYABLE_ERRORS : List String :=
  ["nonce too low",
   "replacement transaction underpriced",
   "already known",
   "timeout",
   "connection",
   "network",
   "gas price too low",
   "max fee per gas less than block base fee"]

/-- is_retryable_error: message matches a known transient pattern, or the
exception is TimeExhausted or ConnectionError. -/
def is_retryable_error (e : PyError) : Bool :=
  RETRYABLE_ERRORS.any (fun pat => strContains (strLower e.msg) pat) ||
    (e.isTimeExhausted || e.isConnectionError)

/-- TransactionRetryConfig.BASE_DELAY. -/
def BASE_DELAY : Nat := 2

/-- TransactionRetryConfig.MAX_DELAY. -/
def MAX_DELAY : Nat := 30

/-- TransactionRetryConfig.BACKOFF_MULTIPLIER. -/
def BACKOFF_MULTIPLIER : Nat := 2

/-- calculate_retry_delay: exponential backoff, capped at MAX_DELAY.
The Python value is a float but is always integral for these constants. -/
def calculate_retry_delay (attempt : Nat) : Nat :=
  min (BASE_DELAY * BACKOFF_MULTIPLIER ^ attempt) MAX_DELAY

/-- The fields of transaction_dict the retry loop reads or writes. -/
structure TxDict where
  nonce : Nat
  gas : Nat
  maxFeePerGas : Option Nat
  maxPriorityFeePerGas : Option Nat
deriving Repr, DecidableEq

/-- Was the failure gas-related ("gas price" or "fee" in the message)? -/
def gasRelated (e : PyError) : Bool :=
  strContains (strLower e.msg) "gas price" || strContains (strLower e.msg) "fee"

/-- Increase the present fee fields; the source computes int(x * 1.2),
abstracted here by the `bump` argument since no claim depends on the
rounded value. -/
def bumpFees (bump : Nat → Nat) (t : TxDict) : TxDict :=
  let t₁ :=
    match t.maxFeePerGas with
    | some f => { t with maxFeePerGas := some (bump f) }
    | none => t
  match t₁.maxPriorityFeePerGas with
  | some f => { t₁ with maxPriorityFeePerGas := some (bump f) }
  | none => t₁

/-- Result of _get_nonce_with_retry: outcome (`.ok none` is the fall-off
value for max_retries = 0, where Python returns None), the number of
get_transaction_count calls, and the sleeps performed. -/
structure FetchTrace where
  result : Except PyError (Option Nat)
  fetchCount : Nat
  sleeps : List Nat
deriving Repr, DecidableEq

/-- The loop of _get_nonce_with_retry: every failure is retried (no
retryability test) with backoff, the last attempt re-raises. -/
def getNonceWithRetryGo (fetch : Nat → Except PyError Nat) (maxRetries : Nat) :
    (attempt remaining fc : Nat) → List Nat → FetchTrace
  | _, 0, fc, sleeps => ⟨.ok none, fc, sleeps⟩
  | attempt, remaining + 1, fc, sleeps =>
    match fetch attempt with
    | .ok n => ⟨.ok (some n), fc + 1, sleeps⟩
    | .error e =>
      if attempt < maxRetries - 1 then
        getNonceWithRetryGo fetch maxRetries (attempt + 1) remaining (fc + 1)
          (sleeps ++ [calculate_retry_delay attempt])
      else ⟨.error e, fc + 1, sleeps⟩

def getNonceWithRetry (fetch : Nat → Except PyError Nat) (maxRetries : Nat) :
    FetchTrace :=
  getNonceWithRetryGo fetch maxRetries 0 maxRetries 0 []

/-- Environment for _send_transaction_with_retry: the outcome of the i-th
send_raw_transaction invocation (counted over the whole run) given the
transaction dict of that attempt, and the outcome of the j-th nonce
refresh (_get_nonce_with_retry treated as one oracle call). -/
structure SendEnv where
  sendTx : Nat → TxDict → Except PyError String
  refreshNonce : Nat → Except PyError Nat

/-- Result of _send_transaction_with_retry: outcome (`.ok none` is the
fall-off value for max_retries = 0), the number of send invocations, the
sleeps performed, and the final transaction dict. -/
structure SendTrace where
  result : Except PyError (Option String)
  sendCount : Nat
  sleeps : List Nat
  txd : TxDict
deriving Repr, DecidableEq

/-- The loop of _send_transaction_with_retry.  On attempt > 0 the nonce is
refreshed first (inside the try block); a failure retries only when
another attempt remains and the error is retryable, bumping the fee
fields first when the failure is gas-related, then sleeping the backoff
delay for the failed attempt. -/
def sendLoop (env : SendEnv) (bump : Nat → Nat) (maxRetries : Nat) :
    (attempt remaining : Nat) → TxDict → Nat → List Nat → Option PyError →
      SendTrace
  | _, 0, txd, sc, sleeps, lastE =>
    ⟨match lastE with | some e => .error e | none => .ok none, sc, sleeps, txd⟩
  | attempt, remaining + 1, txd, sc, sleeps, _ =>
    match (if 0 < attempt then
             (env.refreshNonce (attempt - 1)).map (fun n => { txd with nonce := n })
           else .ok txd) with
    | .ok txd₁ =>
      match env.sendTx sc txd₁ with
      | .ok hash => ⟨.ok (some hash), sc + 1, sleeps, txd₁⟩
      | .error e =>
        if attempt < maxRetries - 1 && is_retryable_error e then
          let txd₂ := if gasRelated e then bumpFees bump txd₁ else txd₁
          sendLoop env bump maxRetries (attempt + 1) remaining txd₂ (sc + 1)
            (sleeps ++ [calculate_retry_delay attempt]) (some e)
        else ⟨.error e, sc + 1, sleeps, txd₁⟩
    | .error e =>
      if attempt < maxRetries - 1 && is_retryable_error e then
        let txd₂ := if gasRelated e then bumpFees bump txd else txd
        sendLoop env bump maxRetries (attempt + 1) remaining txd₂ sc
          (sleeps ++ [calculate_retry_delay attempt]) (some e)
      else ⟨.error e, sc, sleeps, txd⟩

/-- _send_transaction_with_retry(transaction_dict, max_retries). -/
def send_transaction_with_retry (env : SendEnv) (bump : Nat → Nat)
    (txd : TxDict) (maxRetries : Nat) : SendTrace :=
  sendLoop env bump maxRetries 0 maxRetries txd 0 [] none

/-- Outcome of one wait_for_transaction_receipt call. -/
inductive ReceiptOutcome
  | gotReceipt (status gasUsed : Nat)
  | timedOut
  | notFound
  | otherError (e : PyError)
deriving Repr, DecidableEq

structure Receipt where
  status : Nat
  gasUsed : Nat
deriving Repr, DecidableEq

inductive WaitErr
  | timedOut
  | notFound
  | otherError (e : PyError)
deriving Repr, DecidableEq

/-- Result of _wait_for_receipt_with_retry: outcome (`.ok none` is the
fall-off value for max_retries = 0) and the number of wait invocations. -/
structure WaitTrace where
  result : Except WaitErr (Option Receipt)
  waitCount : Nat
deriving Repr, DecidableEq

/-- The loop of _wait_for_receipt_with_retry: TimeExhausted retries with no
sleep until attempts run out, TransactionNotFound and every other error
propagate immediately. -/
def waitLoop (env : Nat → ReceiptOutcome) (maxRetries : Nat) :
    (attempt remaining wc : Nat) → WaitTrace
  | _, 0, wc => ⟨.ok none, wc⟩
  | attempt, remaining + 1, wc =>
    match env attempt with
    | .gotReceipt s g => ⟨.ok (some ⟨s, g⟩), wc + 1⟩
    | .timedOut =>
      if attempt < maxRetries - 1 then
        waitLoop env maxRetries (attempt + 1) remaining (wc + 1)
      else ⟨.error .timedOut, wc + 1⟩
    | .notFound => ⟨.error .notFound, wc + 1⟩
    | .otherError e => ⟨.error (.otherError e), wc + 1⟩

/-- _wait_for_receipt_with_retry(tx_hash, timeout, max_retries). -/
def wait_for_receipt_with_retry (env : Nat → ReceiptOutcome)
    (maxRetries : Nat) : WaitTrace :=
  waitLoop env maxRetries 0 maxRetries 0

/-- Transaction.status values written by process_mint. -/
inductive TxStatus
  | pending
  | confirming
  | confirmed
  | failed
deriving Repr, DecidableEq

/-- The Transaction row process_mint creates and mutates. -/
structure TxRecord where
  status : TxStatus
  blockchainTx : Option String
  gasUsed : Option Nat
deriving Repr, DecidableEq

/-- Environment for process_mint: the pre-existing Transaction row (with
its blockchain_tx) if any, the user's wallet if the user exists, the
nonce-fetch oracle for building, the send environment and the receipt
oracle. -/
structure MintEnv where
  existingTx : Option (Option String)
  userWallet : Option String
  fetchNonce : Nat → Except PyError Nat
  send : SendEnv
  receipt : Nat → ReceiptOutcome

/-- Observable result of process_mint: the returned hash, the final
Transaction row (none when no row was created), the number of raw send
invocations, and all sleeps performed. -/
structure MintTrace where
  retVal : Option String
  record : Option TxRecord
  sendCount : Nat
  sleeps : List Nat
deriving Repr, DecidableEq

/-- 0.001 gwei in wei: maxFeePerGas used by process_mint. -/
def MINT_MAX_FEE : Nat := 1000000

/-- 0.0001 gwei in wei: maxPriorityFeePerGas used by process_mint. -/
def MINT_MAX_PRIORITY_FEE : Nat := 100000

/-- process_mint: duplicate-txId check, user lookup, create a pending row,
fetch a nonce, send with retry (max_retries=3), then wait for the receipt
(max_retries=2) and mark the row confirmed or failed; any exception is
caught, marks the row failed when it exists, and yields None. -/
def process_mint (env : MintEnv) (bump : Nat → Nat) : MintTrace :=
  match env.existingTx with
  | some bt => ⟨bt, none, 0, []⟩
  | none =>
    match env.userWallet with
    | none => ⟨none, none, 0, []⟩
    | some _ =>
      let gn := getNonceWithRetry env.fetchNonce 3
      match gn.result with
      | .error _ => ⟨none, some ⟨.failed, none, none⟩, 0, gn.sleeps⟩
      | .ok none => ⟨none, some ⟨.failed, none, none⟩, 0, gn.sleeps⟩
      | .ok (some n) =>
        let txd : TxDict := ⟨n, 150000, some MINT_MAX_FEE, some MINT_MAX_PRIORITY_FEE⟩
        let snd := send_transaction_with_retry env.send bump txd 3
        match snd.result with
        | .error _ =>
          ⟨none, some ⟨.failed, none, none⟩, snd.sendCount, gn.sleeps ++ snd.sleeps⟩
        | .ok hash? =>
          let wt := wait_for_receipt_with_retry env.receipt 2
          match wt.result with
          | .error _ =>
            ⟨none, some ⟨.failed, hash?, none⟩, snd.sendCount, gn.sleeps ++ snd.sleeps⟩
          | .ok none =>
            ⟨none, some ⟨.failed, hash?, none⟩, snd.sendCount, gn.sleeps ++ snd.sleeps⟩
          | .ok (some rc) =>
            if rc.status = 1 then
              ⟨hash?, some ⟨.confirmed, hash?, some rc.gasUsed⟩, snd.sendCount,
               gn.sleeps ++ snd.sleeps⟩
            else
              ⟨none, some ⟨.failed, hash?, none⟩, snd.sendCount,
               gn.sleeps ++ snd.sleeps⟩

/-! ## CircuitBreaker (backend/middleware/circuit_breaker.py)

The breaker's Redis keys (state, failures, successes, last_failure) are
modelled as one record; an absent state key reads as CLOSED, absent
counters read as 0 (the code only ever writes counters via INCR and
deletes them to reset).  Timestamps are integers (time.time() seconds);
subtraction is over Int exactly as Python's float subtraction. -/

inductive CircuitState
  | closed
  | opened
  | halfOpen
deriving Repr, DecidableEq

structure CBConfig where
  failureThreshold : Nat
  successThreshold : Nat
  timeoutSeconds : Int
  /-- config.expected_exception as a predicate: which exceptions the
  breaker counts (the default, Exception, counts every one). -/
  expectedException : PyError → Bool

structure CBState where
  state : CircuitState
  failures : Nat
  successes : Nat
  lastFailure : Option Int
deriving Repr, DecidableEq

/-- The initial (all-keys-absent) breaker state. -/
def CBState.initial : CBState := ⟨.closed, 0, 0, none⟩

/-- _should_attempt_reset: true when no failure recorded, or the timeout
has elapsed since the last one. -/
def shouldAttemptReset (cfg : CBConfig) (s : CBState) (now : Int) : Bool :=
  match s.lastFailure with
  | none => true
  | some t => cfg.timeoutSeconds ≤ now - t

/-- _on_success. -/
def onSuccess (cfg : CBConfig) (s : CBState) : CBState :=
  match s.state with
  | .halfOpen =>
    let sc := s.successes + 1
    if cfg.successThreshold ≤ sc then
      { state := .closed, failures := 0, successes := 0, lastFailure := s.lastFailure }
    else
      { s with successes := sc }
  | .closed => { s with failures := 0 }
  | .opened => s

/-- _on_failure (increment_failure_count also records the failure time). -/
def onFailure (cfg : CBConfig) (s : CBState) (now : Int) : CBState :=
  match s.state with
  | .halfOpen =>
    { state := .opened, failures := s.failures + 1, successes := 0,
      lastFailure := some now }
  | .closed =>
    let fc := s.failures + 1
    if cfg.failureThreshold ≤ fc then
      { state := .opened, failures := fc, successes := s.successes,
        lastFailure := some now }
    else
      { state := .closed, failures := fc, successes := s.successes,
        lastFailure := some now }
  | .opened => s

/-- The protected function's outcome, supplied by the caller. -/
inductive CallOutcome
  | success
  | failure (e : PyError)
deriving Repr, DecidableEq

inductive CallErr
  /-- CircuitBreakerOpenError carrying the current failure count. -/
  | circuitOpen (failureCount : Nat)
  /-- The exception raised by the protected function, re-raised. -/
  | raised (e : PyError)
deriving Repr, DecidableEq

/-- Result of CircuitBreaker.call plus the ghost flag of whether the
protected function was invoked. -/
structure CallResult where
  result : Except CallErr Unit
  state : CBState
  invoked : Bool
deriving Repr, DecidableEq

/-- The try block of call: invoke the function, then _on_success, or
_on_failure and re-raise (only expected exception types are counted). -/
def runCall (cfg : CBConfig) (s : CBState) (now : Int) (fn : CallOutcome) :
    CallResult :=
  match fn with
  | .success => ⟨.ok (), onSuccess cfg s, true⟩
  | .failure e =>
    if cfg.expectedException e then ⟨.error (.raised e), onFailure cfg s now, true⟩
    else ⟨.error (.raised e), s, true⟩

/-- CircuitBreaker.call: in OPEN, either transition to HALF_OPEN (resetting
the success count) when the timeout has elapsed and let the call through,
or reject with CircuitBreakerOpenError; otherwise run the call. -/
def CircuitBreaker.call (cfg : CBConfig) (s : CBState) (now : Int)
    (fn : CallOutcome) : CallResult :=
  match s.state with
  | .opened =>
    if shouldAttemptReset cfg s now then
      runCall cfg { s with state := .halfOpen, successes := 0 } now fn
    else
      ⟨.error (.circuitOpen s.failures), s, false⟩
  | _ => runCall cfg s now fn

/-- Iterate `call` on n consecutive successful invocations. -/
def callSuccesses (cfg : CBConfig) (now : Int) : Nat → CBState → CBState
  | 0, s => s
  | n + 1, s => callSuccesses cfg now n (CircuitBreaker.call cfg s now .success).state

/-! ## Idempotency middleware (backend/middleware/idempotency.py)

The decorator caches, per generate_key(idempotency_key, path), the body of
the wrapped handler (its dict result) together with status code 200, via
SETEX with the decorator's TTL; a later hit is returned without invoking
the handler.  The handler is modelled by the JSON body it would produce
(the store-eligible dict case the decorator is designed for). -/

/-- A cached idempotency record: json.dumps of body and status_code. -/
structure IdemRecord where
  body : String
  statusCode : Nat
deriving Repr, DecidableEq

/-- An HTTP response as the caller observes it: a dict result is rendered
with status 200, a cache hit replays the stored body and status. -/
structure HttpResponse where
  body : String
  statusCode : Nat
deriving Repr, DecidableEq

/-- IdempotencyMiddleware.DEFAULT_TTL (24 h). -/
def DEFAULT_TTL : Nat := 86400

/-- IdempotencyMiddleware.generate_key. -/
def generate_key (idempotencyKey path : String) : String :=
  "idempotency:" ++ path ++ ":" ++ idempotencyKey

/-- Result of one pass through the idempotent wrapper. -/
structure IdemCallResult where
  response : HttpResponse
  store : RedisStore IdemRecord
  handlerRan : Bool
deriving Repr

/-- The wrapper produced by the idempotent(ttl) decorator, for one request
at instant `now`: a missing or empty Idempotency-Key executes normally; a
cache hit replays the stored response; a miss executes the handler,
stores `{body, status_code: 200}` under the key with the TTL, and returns
the result. -/
def idempotentCall (ttl : Nat) (handlerBody : String)
    (idemKey : Option String) (path : String)
    (store : RedisStore IdemRecord) (now : Nat) : IdemCallResult :=
  match idemKey with
  | none => ⟨⟨handlerBody, 200⟩, store, true⟩
  | some k =>
    if k = "" then ⟨⟨handlerBody, 200⟩, store, true⟩
    else
      let ck := generate_key k path
      match store.get now ck with
      | some rec => ⟨⟨rec.body, rec.statusCode⟩, store, false⟩
      | none =>
        ⟨⟨handlerBody, 200⟩, store.setEX now ck ⟨handlerBody, 200⟩ ttl, true⟩

end Haven

/-! ## Helper lemmas -/

namespace Haven

namespace RedisStore

variable {α : Type}

theorem find?_filter_ne (l : List (String × RedisEntry α)) (k k' : String)
    (h : k ≠ k') :
    (l.filter (fun p => !(p.fst == k))).find? (fun p => p.fst == k') =
      l.find? (fun p => p.fst == k') := by
  induction l with
  | nil => rfl
  | cons hd tl ih =>
    by_cases hk : hd.fst = k
    · have h1 : (hd.fst == k) = true := by simp [hk]
      have h2 : (hd.fst == k') = false := by simp [hk]; exact h
      simp [List.filter, List.find?, h1, h2, ih]
    · have h1 : (hd.fst == k) = false := by simp [hk]
      by_cases hk' : hd.fst = k'
      · have h2 : (hd.fst == k') = true := by simp [hk']
        simp [List.filter, List.find?, h1, h2]
      · have h2 : (hd.fst == k') = false := by simp [hk']
        simp [List.filter, List.find?, h1, h2, ih]

theorem get_set_self (s : RedisStore α) (k : String) (v : α) (now : Nat) :
    (s.set k v).get now k = some v := by
  simp [set, get, lookup, List.find?, RedisEntry.live]

theorem get_set_ne (s : RedisStore α) (k k' : String) (v : α) (now : Nat)
    (h : k ≠ k') :
    (s.set k v).get now k' = s.get now k' := by
  have h2 : (k == k') = false := by simp; exact h
  simp [set, get, lookup, List.find?, h2, find?_filter_ne _ _ _ h]

theorem get_del_self (s : RedisStore α) (k : String) (now : Nat) :
    (s.del k).get now k = none := by
  simp [del, get, lookup]
  induction s.entries with
  | nil => simp
  | cons hd tl ih =>
    by_cases hk : hd.fst = k
    · have h1 : (hd.fst == k) = true := by simp [hk]
      simpa [List.filter, h1] using ih
    · have h1 : (hd.fst == k) = false := by simp [hk]
      simp [List.filter, List.find?, h1]
      exact ih

theorem get_del_ne (s : RedisStore α) (k k' : String) (now : Nat)
    (h : k ≠ k') :
    (s.del k).get now k' = s.get now k' := by
  simp [del, get, lookup, find?_filter_ne _ _ _ h]

theorem journal_set (s : RedisStore α) (k : String) (v : α) :
    (s.set k v).journal = s.journal ++ [(k, v)] := rfl

theorem journal_del (s : RedisStore α) (k : String) :
    (s.del k).journal = s.journal := rfl

theorem setNXEX_acquired (s : RedisStore α) (now : Nat) (k : String) (v : α)
    (ttl : Nat) (h : s.get now k = none) :
    s.setNXEX now k v ttl =
      (true,
       { entries := (k, ⟨v, some (now + ttl)⟩) :: s.entries.filter (fun p => !(p.fst == k)),
         journal := s.journal }) := by
  simp [setNXEX, h]

theorem setNXEX_blocked (s : RedisStore α) (now : Nat) (k : String) (v w : α)
    (ttl : Nat) (h : s.get now k = some w) :
    s.setNXEX now k v ttl = (false, s) := by
  simp [setNXEX, h]

theorem get_setNXEX_self (s : RedisStore α) (now now' : Nat) (k : String)
    (v : α) (ttl : Nat) (h : s.get now k = none) (hlt : now' < now + ttl) :
    (s.setNXEX now k v ttl).2.get now' k = some v := by
  rw [setNXEX_acquired s now k v ttl h]
  simp [get, lookup, List.find?, RedisEntry.live, hlt]

theorem get_setNXEX_ne (s : RedisStore α) (now now' : Nat) (k k' : String)
    (v : α) (ttl : Nat) (h : k ≠ k') :
    (s.setNXEX now k v ttl).2.get now' k' = s.get now' k' := by
  unfold setNXEX
  match hg : s.get now k with
  | some _ => simp
  | none =>
    have h2 : (k == k') = false := by simp; exact h
    simp [get, lookup, List.find?, h2, find?_filter_ne _ _ _ h]

theorem get_setEX_self (s : RedisStore α) (t now : Nat) (k : String)
    (v : α) (ttl : Nat) :
    (s.setEX t k v ttl).get now k = if now < t + ttl then some v else none := by
  by_cases h : now < t + ttl <;>
    simp [setEX, get, lookup, List.find?, RedisEntry.live, h]

theorem journal_setNXEX (s : RedisStore α) (now : Nat) (k : String) (v : α)
    (ttl : Nat) :
    (s.setNXEX now k v ttl).2.journal = s.journal := by
  unfold setNXEX
  match hg : s.get now k with
  | some _ => simp
  | none => simp

end RedisStore

theorem lockKey_ne_nonceKey (w : String) : lockKey w ≠ nonceKey w := by
  intro h
  have hd := congrArg String.data h
  simp [lockKey, nonceKey, String.data_append] at hd
  have hl := congrArg List.length hd
  simp at hl
  omega

theorem get_of_lookup_noexpiry {α : Type} (s : RedisStore α) (k : String)
    (v : α) (h : s.lookup k = some ⟨v, none⟩) (now : Nat) :
    s.get now k = some v := by
  simp [RedisStore.get, h, RedisEntry.live]

theorem releaseLock_clock (st : NMState) (k lockId : String) :
    (releaseLock st k lockId).clock = st.clock := by
  unfold releaseLock
  cases hg : st.store.get st.clock k with
  | none => rfl
  | some v =>
    by_cases hv : v = lockId
    · simp [hv]
    · simp [hv]

theorem get_releaseLock_self (st : NMState) (k lockId : String) :
    (releaseLock st k lockId).store.get (releaseLock st k lockId).clock k ≠
      some lockId := by
  unfold releaseLock
  cases hg : st.store.get st.clock k with
  | none => simp [hg]
  | some v =>
    by_cases hv : v = lockId
    · simp [hv, RedisStore.get_del_self]
    · simp [hv, hg]

theorem acquireLockGo_acquired {α : Type} (k lockId : String) (timeout : Nat)
    (body : NMState → Except NMError α × NMState) (delay remaining : Nat)
    (st : NMState) (h : st.store.get st.clock k = none) :
    acquireLockGo k lockId timeout body delay (remaining + 1) st =
      ((body { st with store := (st.store.setNXEX st.clock k lockId timeout).2 }).1,
       releaseLock
         (body { st with store := (st.store.setNXEX st.clock k lockId timeout).2 }).2
         k lockId) := by
  rw [acquireLockGo, RedisStore.setNXEX_acquired st.store st.clock k lockId timeout h]

theorem releaseLock_owned (st : NMState) (k lockId : String)
    (h : st.store.get st.clock k = some lockId) :
    releaseLock st k lockId = { st with store := st.store.del k } := by
  unfold releaseLock
  rw [h]
  simp

theorem releaseLock_not_owned (st : NMState) (k lockId v : String)
    (h : st.store.get st.clock k = some v) (hv : v ≠ lockId) :
    releaseLock st k lockId = st := by
  unfold releaseLock
  rw [h]
  simp [hv]

theorem acquire_lock_free {α : Type} (w : String) (timeout : Nat)
    (body : NMState → Except NMError α × NMState) (st : NMState)
    (h : st.store.get st.clock (lockKey w) = none) :
    acquire_lock w timeout body st =
      ((body { st with store :=
           (st.store.setNXEX st.clock (lockKey w) (toString st.clock) timeout).2 }).1,
       releaseLock
         (body { st with store :=
            (st.store.setNXEX st.clock (lockKey w) (toString st.clock) timeout).2 }).2
         (lockKey w) (toString st.clock)) := by
  unfold acquire_lock
  rw [show (10 : Nat) = 9 + 1 from rfl,
      acquireLockGo_acquired (lockKey w) (toString st.clock) timeout body 1 9 st h]

theorem acquireLockGo_blocked {α : Type} (k lockId : String) (timeout : Nat)
    (body : NMState → Except NMError α × NMState) (v : String)
    (delay remaining : Nat) :
    ∀ st : NMState, st.store.lookup k = some ⟨v, none⟩ →
      acquireLockGo k lockId timeout body delay remaining st =
        (.error .lockTimeout,
         { st with clock := st.clock + totalSleep delay remaining }) := by
  induction remaining generalizing delay with
  | zero =>
    intro st h
    simp [acquireLockGo, totalSleep]
  | succ n ih =>
    intro st h
    have hget : st.store.get st.clock k = some v := get_of_lookup_noexpiry _ _ _ h _
    rw [show acquireLockGo k lockId timeout body delay (n + 1) st =
          acquireLockGo k lockId timeout body (min (delay * 2) 50) n
            { st with clock := st.clock + delay } by
          rw [acquireLockGo, RedisStore.setNXEX_blocked _ _ _ _ _ _ hget]]
    rw [ih (min (delay * 2) 50) { st with clock := st.clock + delay } h]
    simp [totalSleep, Nat.add_assoc]

theorem get_nonce_unfold (chain : String → Nat) (w : String) (forceSync : Bool)
    (st : NMState) (hw : strLower w = w)
    (hlock : st.store.get st.clock (lockKey w) = none)
    (r : Except NMError Nat) (S' : RedisStore String)
    (hbody : getNonceBody chain w forceSync
        ⟨(st.store.setNXEX st.clock (lockKey w) (toString st.clock) LOCK_TIMEOUT_DS).2,
         st.clock⟩ =
      (r, ⟨S', st.clock⟩))
    (hg : S'.get st.clock (lockKey w) = some (toString st.clock)) :
    get_nonce chain w forceSync st = (r, ⟨S'.del (lockKey w), st.clock⟩) := by
  have hkey : get_nonce chain w forceSync st =
      acquire_lock w LOCK_TIMEOUT_DS (getNonceBody chain w forceSync) st := by
    unfold get_nonce
    rw [hw]
  rw [hkey, acquire_lock_free w LOCK_TIMEOUT_DS _ st hlock, hbody]
  show (r, releaseLock ⟨S', st.clock⟩ (lockKey w) (toString st.clock)) = _
  rw [releaseLock_owned ⟨S', st.clock⟩ (lockKey w) (toString st.clock) hg]

theorem runCall_invoked (cfg : CBConfig) (s : CBState) (now : Int)
    (fn : CallOutcome) : (runCall cfg s now fn).invoked = true := by
  cases fn with
  | success => rfl
  | failure e =>
    simp only [runCall]
    split <;> rfl

theorem callSuccesses_halfOpen (cfg : CBConfig) (now : Int) :
    ∀ (n : Nat) (s : CBState), s.state = .halfOpen →
      s.successes + n = cfg.successThreshold → 1 ≤ n →
      callSuccesses cfg now n s = ⟨.closed, 0, 0, s.lastFailure⟩ := by
  intro n
  induction n with
  | zero => intro s _ _ h; omega
  | succ k ih =>
    intro s hs hsum _
    obtain ⟨st, f, sc, lf⟩ := s
    simp only at hs hsum
    subst hs
    by_cases hk : k = 0
    · subst hk
      have hth : cfg.successThreshold ≤ sc + 1 := by omega
      simp [callSuccesses, CircuitBreaker.call, runCall, onSuccess, hth]
    · have hth : ¬ cfg.successThreshold ≤ sc + 1 := by omega
      have hstep : (CircuitBreaker.call cfg ⟨.halfOpen, f, sc, lf⟩ now .success).state =
          ⟨.halfOpen, f, sc + 1, lf⟩ := by
        simp [CircuitBreaker.call, runCall, onSuccess, hth]
      simp only [callSuccesses, hstep]
      exact ih ⟨.halfOpen, f, sc + 1, lf⟩ rfl (by simp; omega) (by omega)

end Haven

/-! ## Claims -/

namespace Haven

/-- C9: with base delay 2, multiplier 2 and max 30, the retry delays for
attempts 0 through 4 are exactly 2, 4, 8, 16 and 30 seconds (the raw
attempt-4 value 32 being capped at 30). -/
theorem retry_delay_sequence :
    calculate_retry_delay 0 = 2 ∧
    calculate_retry_delay 1 = 4 ∧
    calculate_retry_delay 2 = 8 ∧
    calculate_retry_delay 3 = 16 ∧
    calculate_retry_delay 4 = 30 ∧
    BASE_DELAY * BACKOFF_MULTIPLIER ^ 4 = 32 := by
  decide

/-- C1 (code bug): a single reserve_nonce call on wallet 0xaaa with chain
transaction count 10 and no stored nonce never returns the reserved nonce
10: get_nonce, called by reserve_nonce while reserve_nonce already holds
the wallet's non-reentrant Redis lock, fails all 10 acquisition attempts
within the 30 s lock TTL and raises RuntimeError 26.3 s later — whereas
the same get_nonce called directly adopts the chain value 10.  The spec's
reservation property is therefore violated already at N = 1. -/
theorem reserve_nonce_first_call_raises :
    reserve_nonce (fun _ => 10) "0xaaa" ⟨RedisStore.empty, 0⟩ =
      (.error .lockTimeout, ⟨⟨[], []⟩, 263⟩) ∧
    (get_nonce (fun _ => 10) "0xaaa" false ⟨RedisStore.empty, 0⟩).1 = .ok 10 := by
  decide

/-- C10: the finally block of acquire_lock deletes the lock key only when
it still holds this acquisition's lock_id; when another holder's value is
stored (the lease expired and was re-acquired), release leaves the store
untouched. -/
theorem release_only_when_owned :
    (∀ (st : NMState) (k lockId : String),
       st.store.get st.clock k = some lockId →
       releaseLock st k lockId = { st with store := st.store.del k } ∧
       (releaseLock st k lockId).store.get st.clock k = none)
    ∧ (∀ (st : NMState) (k lockId v : String),
        st.store.get st.clock k = some v → v ≠ lockId →
        releaseLock st k lockId = st) := by
  constructor
  · intro st k lockId h
    constructor
    · unfold releaseLock
      rw [h]
      simp
    · unfold releaseLock
      rw [h]
      simp [RedisStore.get_del_self]
  · intro st k lockId v h hv
    unfold releaseLock
    rw [h]
    simp [hv]

/-- Witness for release_only_when_owned at a concrete store: an owned lock
is deleted; a lock re-acquired by another holder is left untouched. -/
theorem release_only_when_owned_witness :
    (releaseLock ⟨⟨[("nonce:lock:0xaaa", ⟨"7", none⟩)], []⟩, 5⟩
        "nonce:lock:0xaaa" "7" =
      ⟨⟨[], []⟩, 5⟩) ∧
    (releaseLock ⟨⟨[("nonce:lock:0xaaa", ⟨"other", none⟩)], []⟩, 5⟩
        "nonce:lock:0xaaa" "7" =
      ⟨⟨[("nonce:lock:0xaaa", ⟨"other", none⟩)], []⟩, 5⟩) := by
  constructor
  · have h := (release_only_when_owned.1
      ⟨⟨[("nonce:lock:0xaaa", ⟨"7", none⟩)], []⟩, 5⟩
      "nonce:lock:0xaaa" "7" (by decide)).1
    rw [h]
    decide
  · exact release_only_when_owned.2
      ⟨⟨[("nonce:lock:0xaaa", ⟨"other", none⟩)], []⟩, 5⟩
      "nonce:lock:0xaaa" "7" "other" (by decide) (by decide)

/-- C5: after a first wrapped invocation with idempotency key k and path p
completes with body R (stored under SETEX for the TTL), every duplicate
within the TTL gets exactly the response (R, 200) back without the
wrapped handler running and without touching the store; at or after
expiry of the TTL the wrapped handler executes afresh. -/
theorem idempotent_replay
    (ttl : Nat) (k path R R₂ : String) (store : RedisStore IdemRecord)
    (t0 t1 t2 : Nat)
    (hk : k ≠ "")
    (hmiss : store.get t0 (generate_key k path) = none) :
    (idempotentCall ttl R (some k) path store t0).handlerRan = true ∧
    (idempotentCall ttl R (some k) path store t0).response = ⟨R, 200⟩ ∧
    (t1 < t0 + ttl →
       (idempotentCall ttl R₂ (some k) path
          (idempotentCall ttl R (some k) path store t0).store t1).response = ⟨R, 200⟩ ∧
       (idempotentCall ttl R₂ (some k) path
          (idempotentCall ttl R (some k) path store t0).store t1).handlerRan = false ∧
       (idempotentCall ttl R₂ (some k) path
          (idempotentCall ttl R (some k) path store t0).store t1).store =
         (idempotentCall ttl R (some k) path store t0).store) ∧
    (t0 + ttl ≤ t2 →
       (idempotentCall ttl R₂ (some k) path
          (idempotentCall ttl R (some k) path store t0).store t2).handlerRan = true ∧
       (idempotentCall ttl R₂ (some k) path
          (idempotentCall ttl R (some k) path store t0).store t2).response = ⟨R₂, 200⟩) := by
  have hc1 : idempotentCall ttl R (some k) path store t0 =
      ⟨⟨R, 200⟩, store.setEX t0 (generate_key k path) ⟨R, 200⟩ ttl, true⟩ := by
    simp [idempotentCall, hk, hmiss]
  refine ⟨by rw [hc1], by rw [hc1], ?_, ?_⟩
  · intro ht1
    rw [hc1]
    simp [idempotentCall, hk, RedisStore.get_setEX_self, ht1]
  · intro ht2
    rw [hc1]
    have hexp : ¬ t2 < t0 + ttl := by omega
    simp [idempotentCall, hk, RedisStore.get_setEX_self, hexp]

/-- Witness for idempotent_replay: key "mint-7f3a9c1b" on path
"/token/mint" with the default 24 h TTL: the duplicate at t=100 replays
(R, 200) without running the handler; the request at t=86400 runs the
handler afresh. -/
theorem idempotent_replay_witness :
    (idempotentCall 86400 "resp1" (some "mint-7f3a9c1b") "/token/mint"
        RedisStore.empty 0).handlerRan = true ∧
    (idempotentCall 86400 "resp2" (some "mint-7f3a9c1b") "/token/mint"
        (idempotentCall 86400 "resp1" (some "mint-7f3a9c1b") "/token/mint"
           RedisStore.empty 0).store 100).response = ⟨"resp1", 200⟩ ∧
    (idempotentCall 86400 "resp2" (some "mint-7f3a9c1b") "/token/mint"
        (idempotentCall 86400 "resp1" (some "mint-7f3a9c1b") "/token/mint"
           RedisStore.empty 0).store 100).handlerRan = false ∧
    (idempotentCall 86400 "resp2" (some "mint-7f3a9c1b") "/token/mint"
        (idempotentCall 86400 "resp1" (some "mint-7f3a9c1b") "/token/mint"
           RedisStore.empty 0).store 86400).handlerRan = true ∧
    (idempotentCall 86400 "resp2" (some "mint-7f3a9c1b") "/token/mint"
        (idempotentCall 86400 "resp1" (some "mint-7f3a9c1b") "/token/mint"
           RedisStore.empty 0).store 86400).response = ⟨"resp2", 200⟩ := by
  have h := idempotent_replay 86400 "mint-7f3a9c1b" "/token/mint" "resp1" "resp2"
    RedisStore.empty 0 100 86400 (by decide) (by decide)
  exact ⟨h.1, (h.2.2.1 (by decide)).1, (h.2.2.1 (by decide)).2.1,
    (h.2.2.2 (by decide)).1, (h.2.2.2 (by decide)).2⟩

/-- C3: with the breaker OPEN and the timeout not yet elapsed since the
last failure, call raises CircuitBreakerOpenError carrying the current
failure count, does not invoke the function, and leaves the state
unchanged; once the timeout has elapsed, call transitions the breaker to
HALF_OPEN (resetting the success count) and invokes the function. -/
theorem circuit_open_gating
    (cfg : CBConfig) (s : CBState) (now t : Int) (fn : CallOutcome)
    (hopen : s.state = .opened) (hlf : s.lastFailure = some t) :
    (now - t < cfg.timeoutSeconds →
       CircuitBreaker.call cfg s now fn =
         ⟨.error (.circuitOpen s.failures), s, false⟩) ∧
    (cfg.timeoutSeconds ≤ now - t →
       CircuitBreaker.call cfg s now fn =
         runCall cfg { s with state := .halfOpen, successes := 0 } now fn ∧
       (CircuitBreaker.call cfg s now fn).invoked = true) := by
  obtain ⟨st, f, sc, lf⟩ := s
  simp only at hopen hlf
  subst hopen
  subst hlf
  constructor
  · intro hlt
    have hcond : shouldAttemptReset cfg ⟨.opened, f, sc, some t⟩ now = false := by
      simp [shouldAttemptReset]
      omega
    simp [CircuitBreaker.call, hcond]
  · intro hge
    have hcond : shouldAttemptReset cfg ⟨.opened, f, sc, some t⟩ now = true := by
      simp [shouldAttemptReset]
      omega
    constructor
    · simp [CircuitBreaker.call, hcond]
    · simp [CircuitBreaker.call, hcond, runCall_invoked]

/-- Witness for circuit_open_gating: threshold config (3, 2, 30s), breaker
opened at t=100 with 2 failures: a call at t=101 is rejected with the
failure count and without invoking the function; a call at t=130 invokes
the function through the HALF_OPEN probe. -/
theorem circuit_open_gating_witness :
    (CircuitBreaker.call ⟨3, 2, 30, fun _ => true⟩ ⟨.opened, 2, 0, some 100⟩
        101 .success =
      ⟨.error (.circuitOpen 2), ⟨.opened, 2, 0, some 100⟩, false⟩) ∧
    ((CircuitBreaker.call ⟨3, 2, 30, fun _ => true⟩ ⟨.opened, 2, 0, some 100⟩
        130 .success).invoked = true) := by
  constructor
  · exact (circuit_open_gating ⟨3, 2, 30, fun _ => true⟩ ⟨.opened, 2, 0, some 100⟩
      101 100 .success rfl rfl).1 (by decide)
  · exact ((circuit_open_gating ⟨3, 2, 30, fun _ => true⟩ ⟨.opened, 2, 0, some 100⟩
      130 100 .success rfl rfl).2 (by decide)).2

/-- C4: in HALF_OPEN any failing counted call transitions back to OPEN
with the success count reset and the failure count incremented; from
HALF_OPEN (success count 0, as left by the transition into HALF_OPEN),
successThreshold consecutive successful calls transition to CLOSED with
both counters reset; in CLOSED each failing call increments the failure
count and the breaker transitions to OPEN exactly when the count reaches
failureThreshold. -/
theorem circuit_counter_transitions (cfg : CBConfig) (now : Int) :
    (∀ (s : CBState) (e : PyError), s.state = .halfOpen →
       cfg.expectedException e = true →
       CircuitBreaker.call cfg s now (.failure e) =
         ⟨.error (.raised e), ⟨.opened, s.failures + 1, 0, some now⟩, true⟩) ∧
    (∀ s : CBState, s.state = .halfOpen → s.successes = 0 →
       1 ≤ cfg.successThreshold →
       callSuccesses cfg now cfg.successThreshold s = ⟨.closed, 0, 0, s.lastFailure⟩) ∧
    (∀ (s : CBState) (e : PyError), s.state = .closed →
       cfg.expectedException e = true →
       CircuitBreaker.call cfg s now (.failure e) =
         ⟨.error (.raised e),
          ⟨if cfg.failureThreshold ≤ s.failures + 1 then .opened else .closed,
           s.failures + 1, s.successes, some now⟩, true⟩) := by
  refine ⟨?_, ?_, ?_⟩
  · intro s e hs hexp
    obtain ⟨st, f, sc, lf⟩ := s
    simp only at hs
    subst hs
    simp [CircuitBreaker.call, runCall, onFailure, hexp]
  · intro s hs hsc hth
    exact callSuccesses_halfOpen cfg now cfg.successThreshold s hs
      (by omega) hth
  · intro s e hs hexp
    obtain ⟨st, f, sc, lf⟩ := s
    simp only at hs
    subst hs
    by_cases hth : cfg.failureThreshold ≤ f + 1
    · simp [CircuitBreaker.call, runCall, onFailure, hexp, hth]
    · simp [CircuitBreaker.call, runCall, onFailure, hexp, hth]

/-- Witness for circuit_counter_transitions with config (3, 2, 30s): a
failure in HALF_OPEN reopens with the success count cleared; 2 successes
from HALF_OPEN close the breaker with counters reset; a third failure in
CLOSED opens it. -/
theorem circuit_counter_transitions_witness :
    (CircuitBreaker.call ⟨3, 2, 30, fun _ => true⟩ ⟨.halfOpen, 1, 1, some 50⟩
        60 (.failure ⟨"boom", false, false⟩) =
      ⟨.error (.raised ⟨"boom", false, false⟩), ⟨.opened, 2, 0, some 60⟩, true⟩) ∧
    (callSuccesses ⟨3, 2, 30, fun _ => true⟩ 60 2 ⟨.halfOpen, 4, 0, some 50⟩ =
      ⟨.closed, 0, 0, some 50⟩) ∧
    (CircuitBreaker.call ⟨3, 2, 30, fun _ => true⟩ ⟨.closed, 2, 0, some 40⟩
        60 (.failure ⟨"boom", false, false⟩) =
      ⟨.error (.raised ⟨"boom", false, false⟩), ⟨.opened, 3, 0, some 60⟩, true⟩) := by
  refine ⟨?_, ?_, ?_⟩
  · exact (circuit_counter_transitions ⟨3, 2, 30, fun _ => true⟩ 60).1
      ⟨.halfOpen, 1, 1, some 50⟩ ⟨"boom", false, false⟩ rfl rfl
  · exact (circuit_counter_transitions ⟨3, 2, 30, fun _ => true⟩ 60).2.1
      ⟨.halfOpen, 4, 0, some 50⟩ rfl rfl (by decide)
  · exact (circuit_counter_transitions ⟨3, 2, 30, fun _ => true⟩ 60).2.2
      ⟨.closed, 2, 0, some 40⟩ ⟨"boom", false, false⟩ rfl rfl

/-- C2 counterexample: with max_retries=3, a send that always fails with
the retryable error "timeout" invokes send_raw_transaction 3 times in
total — not the 4 the claim states — sleeping 2 s and 4 s before the two
retries; a receipt wait with max_retries=2 that always times out invokes
the wait twice, not 3 times, with no sleeps at all. -/
theorem send_retry_invocation_counterexample :
    (send_transaction_with_retry
        ⟨fun _ _ => .error ⟨"timeout", false, false⟩, fun _ => .ok 5⟩
        (fun f => f * 12 / 10) ⟨0, 150000, some 1000000, some 100000⟩ 3).sendCount = 3 ∧
    ¬ (send_transaction_with_retry
        ⟨fun _ _ => .error ⟨"timeout", false, false⟩, fun _ => .ok 5⟩
        (fun f => f * 12 / 10) ⟨0, 150000, some 1000000, some 100000⟩ 3).sendCount = 4 ∧
    (send_transaction_with_retry
        ⟨fun _ _ => .error ⟨"timeout", false, false⟩, fun _ => .ok 5⟩
        (fun f => f * 12 / 10) ⟨0, 150000, some 1000000, some 100000⟩ 3).sleeps = [2, 4] ∧
    (wait_for_receipt_with_retry (fun _ => .timedOut) 2).waitCount = 2 ∧
    ¬ (wait_for_receipt_with_retry (fun _ => .timedOut) 2).waitCount = 3 := by
  decide

/-- C2 (amended): with max_retries=3, a send that keeps failing with
retryable errors invokes the underlying send exactly 3 times — the loop
bound counts total attempts, i.e. one initial attempt plus up to 2
retries — with the backoff delay for failed attempt k slept before retry
k+1 and no delay before the first attempt, and the last error re-raised;
confirmation waiting with its own bound max_retries=2 invokes the wait at
most twice (here exactly twice), with no delay between attempts. -/
theorem send_retry_invocation_amended
    (errSeq : Nat → PyError) (nonceSeq : Nat → Nat) (bump : Nat → Nat)
    (txd : TxDict)
    (hret : ∀ i, is_retryable_error (errSeq i) = true) :
    (send_transaction_with_retry
        ⟨fun i _ => .error (errSeq i), fun j => .ok (nonceSeq j)⟩ bump txd 3).sendCount = 3 ∧
    (send_transaction_with_retry
        ⟨fun i _ => .error (errSeq i), fun j => .ok (nonceSeq j)⟩ bump txd 3).sleeps =
      [calculate_retry_delay 0, calculate_retry_delay 1] ∧
    (send_transaction_with_retry
        ⟨fun i _ => .error (errSeq i), fun j => .ok (nonceSeq j)⟩ bump txd 3).result =
      .error (errSeq 2) ∧
    (wait_for_receipt_with_retry (fun _ => .timedOut) 2).waitCount = 2 ∧
    (wait_for_receipt_with_retry (fun _ => .timedOut) 2).result = .error .timedOut := by
  simp only [send_transaction_with_retry, sendLoop, hret, Except.map]
  simp
  decide

/-- Witness for send_retry_invocation_amended with the constant retryable
error "nonce too low" and constant nonce 9. -/
theorem send_retry_invocation_amended_witness :
    (send_transaction_with_retry
        ⟨fun _ _ => .error ⟨"nonce too low", false, false⟩, fun _ => .ok 9⟩
        (fun f => f * 12 / 10) ⟨0, 150000, none, none⟩ 3).sendCount = 3 ∧
    (send_transaction_with_retry
        ⟨fun _ _ => .error ⟨"nonce too low", false, false⟩, fun _ => .ok 9⟩
        (fun f => f * 12 / 10) ⟨0, 150000, none, none⟩ 3).sleeps =
      [calculate_retry_delay 0, calculate_retry_delay 1] ∧
    (send_transaction_with_retry
        ⟨fun _ _ => .error ⟨"nonce too low", false, false⟩, fun _ => .ok 9⟩
        (fun f => f * 12 / 10) ⟨0, 150000, none, none⟩ 3).result =
      .error ⟨"nonce too low", false, false⟩ ∧
    (wait_for_receipt_with_retry (fun _ => .timedOut) 2).waitCount = 2 ∧
    (wait_for_receipt_with_retry (fun _ => .timedOut) 2).result = .error .timedOut := by
  have h : is_retryable_error ⟨"nonce too low", false, false⟩ = true := by decide
  exact send_retry_invocation_amended (fun _ => ⟨"nonce too low", false, false⟩)
    (fun _ => 9) (fun f => f * 12 / 10) ⟨0, 150000, none, none⟩ (fun _ => h)

/-- C6: a submission whose sends fail with a non-retryable (fatal) error
such as "insufficient funds" performs exactly one send attempt, sleeps no
backoff delay, returns None, and leaves the Transaction row FAILED. -/
theorem fatal_error_short_circuits
    (e : PyError) (he : is_retryable_error e = false)
    (w : String) (n₀ : Nat) (nonceSeq : Nat → Nat)
    (receipt : Nat → ReceiptOutcome) (bump : Nat → Nat) :
    process_mint
      ⟨none, some w, fun _ => .ok n₀,
       ⟨fun _ _ => .error e, fun j => .ok (nonceSeq j)⟩, receipt⟩ bump =
      ⟨none, some ⟨.failed, none, none⟩, 1, []⟩ := by
  simp only [process_mint, getNonceWithRetry, getNonceWithRetryGo,
    send_transaction_with_retry, sendLoop, he]
  simp

/-- Witness for fatal_error_short_circuits at the error
"insufficient funds". -/
theorem fatal_error_short_circuits_witness :
    process_mint
      ⟨none, some "user-wallet", fun _ => .ok 5,
       ⟨fun _ _ => .error ⟨"insufficient funds", false, false⟩, fun j => .ok j⟩,
       fun _ => .timedOut⟩ (fun f => f * 12 / 10) =
      ⟨none, some ⟨.failed, none, none⟩, 1, []⟩ :=
  fatal_error_short_circuits ⟨"insufficient funds", false, false⟩ (by decide)
    "user-wallet" 5 (fun j => j) (fun _ => .timedOut) (fun f => f * 12 / 10)

/-- C7: get_nonce under a free wallet lock: with no stored value or with
force_sync it adopts and persists the chain's transaction count; otherwise
it returns max(stored, chain), persisting exactly when the adopted value
differs from the stored one (the journal records the SET writes). -/
theorem get_nonce_adoption (chain : String → Nat) (w : String) (st : NMState)
    (hw : strLower w = w)
    (hlock : st.store.get st.clock (lockKey w) = none) :
    (∀ forceSync : Bool, st.store.get st.clock (nonceKey w) = none →
       (get_nonce chain w forceSync st).1 = .ok (chain w) ∧
       (get_nonce chain w forceSync st).2.clock = st.clock ∧
       (get_nonce chain w forceSync st).2.store.get st.clock (nonceKey w) =
         some (toString (chain w)) ∧
       (get_nonce chain w forceSync st).2.store.journal =
         st.store.journal ++ [(nonceKey w, toString (chain w))])
    ∧ (∀ v : String, st.store.get st.clock (nonceKey w) = some v →
        (get_nonce chain w true st).1 = .ok (chain w) ∧
        (get_nonce chain w true st).2.clock = st.clock ∧
        (get_nonce chain w true st).2.store.get st.clock (nonceKey w) =
          some (toString (chain w)) ∧
        (get_nonce chain w true st).2.store.journal =
          st.store.journal ++ [(nonceKey w, toString (chain w))])
    ∧ (∀ (v : String) (m : Nat),
        st.store.get st.clock (nonceKey w) = some v → parseNat v = some m →
        (get_nonce chain w false st).1 = .ok (max m (chain w)) ∧
        (get_nonce chain w false st).2.clock = st.clock ∧
        (max m (chain w) ≠ m →
          (get_nonce chain w false st).2.store.get st.clock (nonceKey w) =
            some (toString (max m (chain w))) ∧
          (get_nonce chain w false st).2.store.journal =
            st.store.journal ++ [(nonceKey w, toString (max m (chain w)))]) ∧
        (max m (chain w) = m →
          (get_nonce chain w false st).2.store.get st.clock (nonceKey w) = some v ∧
          (get_nonce chain w false st).2.store.journal = st.store.journal)) := by
  have hne := lockKey_ne_nonceKey w
  set S : RedisStore String :=
    (st.store.setNXEX st.clock (lockKey w) (toString st.clock) LOCK_TIMEOUT_DS).2 with hS
  have hSread : S.get st.clock (nonceKey w) = st.store.get st.clock (nonceKey w) := by
    rw [hS]
    exact RedisStore.get_setNXEX_ne st.store st.clock st.clock (lockKey w) (nonceKey w)
      (toString st.clock) LOCK_TIMEOUT_DS hne
  have hSlock : S.get st.clock (lockKey w) = some (toString st.clock) := by
    rw [hS]
    exact RedisStore.get_setNXEX_self st.store st.clock st.clock (lockKey w)
      (toString st.clock) LOCK_TIMEOUT_DS hlock (by simp [LOCK_TIMEOUT_DS])
  have hSj : S.journal = st.store.journal := by
    rw [hS]
    exact RedisStore.journal_setNXEX st.store st.clock (lockKey w) (toString st.clock)
      LOCK_TIMEOUT_DS
  have hgset : ∀ x : String,
      (S.set (nonceKey w) x).get st.clock (lockKey w) = some (toString st.clock) := by
    intro x
    rw [RedisStore.get_set_ne S (nonceKey w) (lockKey w) x st.clock (Ne.symm hne)]
    exact hSlock
  refine ⟨?_, ?_, ?_⟩
  · intro fs hstored
    have hS1 : S.get st.clock (nonceKey w) = none := hSread.trans hstored
    have hbody : getNonceBody chain w fs ⟨S, st.clock⟩ =
        (.ok (chain w), ⟨S.set (nonceKey w) (toString (chain w)), st.clock⟩) := by
      unfold getNonceBody
      simp only [hw]
      rw [hS1]
    rw [get_nonce_unfold chain w fs st hw hlock _ _ hbody (hgset _)]
    refine ⟨rfl, rfl, ?_, ?_⟩
    · rw [RedisStore.get_del_ne _ (lockKey w) (nonceKey w) st.clock hne]
      exact RedisStore.get_set_self S (nonceKey w) (toString (chain w)) st.clock
    · rw [RedisStore.journal_del, RedisStore.journal_set, hSj]
  · intro v hstored
    have hS1 : S.get st.clock (nonceKey w) = some v := hSread.trans hstored
    have hbody : getNonceBody chain w true ⟨S, st.clock⟩ =
        (.ok (chain w), ⟨S.set (nonceKey w) (toString (chain w)), st.clock⟩) := by
      unfold getNonceBody
      simp only [hw]
      rw [hS1]
      simp
    rw [get_nonce_unfold chain w true st hw hlock _ _ hbody (hgset _)]
    refine ⟨rfl, rfl, ?_, ?_⟩
    · rw [RedisStore.get_del_ne _ (lockKey w) (nonceKey w) st.clock hne]
      exact RedisStore.get_set_self S (nonceKey w) (toString (chain w)) st.clock
    · rw [RedisStore.journal_del, RedisStore.journal_set, hSj]
  · intro v m hstored hparse
    have hS1 : S.get st.clock (nonceKey w) = some v := hSread.trans hstored
    by_cases hmax : max m (chain w) = m
    · have hbody : getNonceBody chain w false ⟨S, st.clock⟩ =
          (.ok (max m (chain w)), ⟨S, st.clock⟩) := by
        unfold getNonceBody
        simp only [hw]
        rw [hS1]
        simp [hparse, hmax]
      rw [get_nonce_unfold chain w false st hw hlock _ _ hbody hSlock]
      refine ⟨rfl, rfl, fun hne' => absurd hmax hne', fun _ => ⟨?_, ?_⟩⟩
      · rw [RedisStore.get_del_ne _ (lockKey w) (nonceKey w) st.clock hne]
        exact hS1
      · rw [RedisStore.journal_del, hSj]
    · have hbody : getNonceBody chain w false ⟨S, st.clock⟩ =
          (.ok (max m (chain w)),
           ⟨S.set (nonceKey w) (toString (max m (chain w))), st.clock⟩) := by
        unfold getNonceBody
        simp only [hw]
        rw [hS1]
        simp [hparse, hmax]
      rw [get_nonce_unfold chain w false st hw hlock _ _ hbody (hgset _)]
      refine ⟨rfl, rfl, fun _ => ⟨?_, ?_⟩, fun heq => absurd heq hmax⟩
      · rw [RedisStore.get_del_ne _ (lockKey w) (nonceKey w) st.clock hne]
        exact RedisStore.get_set_self S (nonceKey w) (toString (max m (chain w))) st.clock
      · rw [RedisStore.journal_del, RedisStore.journal_set, hSj]

/-- Witness for get_nonce_adoption at chain nonce 7: an empty store adopts
and persists 7; a stored "5" (behind the chain) adopts 7 and persists it;
a stored "9" (ahead of the chain) is returned and nothing is persisted. -/
theorem get_nonce_adoption_witness :
    ((get_nonce (fun _ => 7) "0xabc" false ⟨RedisStore.empty, 0⟩).1 = .ok 7 ∧
     (get_nonce (fun _ => 7) "0xabc" false ⟨RedisStore.empty, 0⟩).2.store.get 0
        (nonceKey "0xabc") = some (toString 7)) ∧
    ((get_nonce (fun _ => 7) "0xabc" false
        ⟨⟨[("nonce:0xabc", ⟨"5", none⟩)], []⟩, 0⟩).1 = .ok (max 5 7) ∧
     (get_nonce (fun _ => 7) "0xabc" false
        ⟨⟨[("nonce:0xabc", ⟨"5", none⟩)], []⟩, 0⟩).2.store.journal =
       [] ++ [(nonceKey "0xabc", toString (max 5 7))]) ∧
    ((get_nonce (fun _ => 7) "0xabc" false
        ⟨⟨[("nonce:0xabc", ⟨"9", none⟩)], []⟩, 0⟩).1 = .ok (max 9 7) ∧
     (get_nonce (fun _ => 7) "0xabc" false
        ⟨⟨[("nonce:0xabc", ⟨"9", none⟩)], []⟩, 0⟩).2.store.journal = []) := by
  refine ⟨⟨?_, ?_⟩, ⟨?_, ?_⟩, ⟨?_, ?_⟩⟩
  · exact ((get_nonce_adoption (fun _ => 7) "0xabc" ⟨RedisStore.empty, 0⟩
      (by decide) (by decide)).1 false (by decide)).1
  · exact ((get_nonce_adoption (fun _ => 7) "0xabc" ⟨RedisStore.empty, 0⟩
      (by decide) (by decide)).1 false (by decide)).2.2.1
  · exact (((get_nonce_adoption (fun _ => 7) "0xabc"
      ⟨⟨[("nonce:0xabc", ⟨"5", none⟩)], []⟩, 0⟩ (by decide) (by decide)).2.2 "5" 5
      (by decide) (by decide)).1)
  · exact (((get_nonce_adoption (fun _ => 7) "0xabc"
      ⟨⟨[("nonce:0xabc", ⟨"5", none⟩)], []⟩, 0⟩ (by decide) (by decide)).2.2 "5" 5
      (by decide) (by decide)).2.2.1 (by decide)).2
  · exact (((get_nonce_adoption (fun _ => 7) "0xabc"
      ⟨⟨[("nonce:0xabc", ⟨"9", none⟩)], []⟩, 0⟩ (by decide) (by decide)).2.2 "9" 9
      (by decide) (by decide)).1)
  · exact (((get_nonce_adoption (fun _ => 7) "0xabc"
      ⟨⟨[("nonce:0xabc", ⟨"9", none⟩)], []⟩, 0⟩ (by decide) (by decide)).2.2 "9" 9
      (by decide) (by decide)).2.2.2 (by decide)).2

/-- C8: acquiring the wallet lease succeeds only through acquire_lock's
SET NX EX attempt; (1) whenever the lock is free and the lease is taken,
the finally block runs on every exit path — whatever the protected body
does or raises, afterwards this acquisition's lock_id is no longer held;
(2) when the lock stays held by someone else, the 10 bounded attempts are
exhausted and acquire_lock raises RuntimeError 26.3 s later with the
store untouched and the body never run. -/
theorem acquire_lock_releases_and_bounds (α : Type) :
    (∀ (w : String) (timeout : Nat)
       (body : NMState → Except NMError α × NMState) (st : NMState),
       st.store.get st.clock (lockKey w) = none →
       (acquire_lock w timeout body st).2.store.get
           (acquire_lock w timeout body st).2.clock (lockKey w) ≠
         some (toString st.clock))
    ∧ (∀ (w : String) (timeout : Nat)
        (body : NMState → Except NMError α × NMState) (st : NMState)
        (v : String),
        st.store.lookup (lockKey w) = some ⟨v, none⟩ →
        acquire_lock w timeout body st =
          (.error .lockTimeout, { st with clock := st.clock + 263 })) := by
  constructor
  · intro w timeout body st h
    unfold acquire_lock
    rw [show (10 : Nat) = 9 + 1 from rfl,
        acquireLockGo_acquired (lockKey w) (toString st.clock) timeout body 1 9 st h]
    exact get_releaseLock_self _ _ _
  · intro w timeout body st v h
    unfold acquire_lock
    rw [acquireLockGo_blocked (lockKey w) (toString st.clock) timeout body v 1 10 st h]
    rw [show totalSleep 1 10 = 263 from rfl]

/-- Witness for acquire_lock_releases_and_bounds: with the lock free the
lease taken at clock 0 (lock_id "0") is gone afterwards; with the lock
held by "held" forever the call fails with RuntimeError at clock 267. -/
theorem acquire_lock_releases_and_bounds_witness :
    ((acquire_lock "0xbbb" 300 (fun s => (Except.ok (0 : Nat), s))
        ⟨RedisStore.empty, 0⟩).2.store.get
       (acquire_lock "0xbbb" 300 (fun s => (Except.ok (0 : Nat), s))
          ⟨RedisStore.empty, 0⟩).2.clock (lockKey "0xbbb") ≠
      some "0") ∧
    (acquire_lock "0xccc" 300 (fun s => (Except.ok (0 : Nat), s))
        ⟨⟨[("nonce:lock:0xccc", ⟨"held", none⟩)], []⟩, 4⟩ =
      (.error .lockTimeout, ⟨⟨[("nonce:lock:0xccc", ⟨"held", none⟩)], []⟩, 267⟩)) := by
  constructor
  · exact (acquire_lock_releases_and_bounds Nat).1 "0xbbb" 300
      (fun s => (Except.ok 0, s)) ⟨RedisStore.empty, 0⟩ (by decide)
  · exact (acquire_lock_releases_and_bounds Nat).2 "0xccc" 300
      (fun s => (Except.ok 0, s))
      ⟨⟨[("nonce:lock:0xccc", ⟨"held", none⟩)], []⟩, 4⟩ "held" (by decide)

end Haven
